import Mathlib

/-!
Verification of the authoritative session layer of the Plinko royale game.

The development embeds, as executable Lean definitions:
  * the data model of `src/types.ts` (`Player`, `GamePhase`),
  * the delta engine of `src/server/stateDiff.ts`
    (`computeStateDelta`, `applyStateDelta`),
  * the codec helpers of `src/server/stateDiff.ts`
    (`colorToInt`, `intToColor`, `playerToProto`, `protoToPlayer`),
  * the socket event handlers of the server file `src/unnamed/part_012`
    (`joinGame`, `addBot`, `startGame`, `resetLobby`, `playAgain`,
     `dropBall`, `scoreUpdate`, `destroyBall`, `disconnect`,
     `checkGameOver`, `scheduleBotDrops`, and the scoring timeout
     callbacks, which are embedded once as `timeoutFire`).

Modelling conventions:
  * A JavaScript `number | null` score is `Option Int` (`none` = null).
  * The optional field `isSpectator?: boolean` of `src/types.ts` is
    `Option Bool` (`none` = the property is absent / `undefined`).
  * JavaScript `Map` objects keyed by player id are association lists in
    insertion order; `Map.set` overwrites in place, `Map.delete` removes.
  * The timer maps store opaque timer handles; only the key set is
    observable to the session logic, so they are embedded as lists of
    keys.  `clearTimeout` acts on the external runtime and has no
    visible effect on session state beyond the key removal.
  * Randomness (bot names, bot ids, hsl hue of a generated color, drop
    delays and positions) is passed in as explicit parameters; timer
    delays and x positions do not influence any roster field and are
    dropped from the outbound message model.
  * Strings are ASCII here, so JavaScript `substring` is modelled on the
    character list.  `parseInt(s, 16)` is modelled as parsing the
    longest hex-digit prefix (`none` = NaN); the whitespace / sign /
    `0x`-prefix forms accepted by `parseInt` never occur in a color
    string fed to `colorToInt`.
-/

/-- The three session phases of `src/types.ts` (a string enum; every
value is a truthy nonempty string, which is why `delta.phase ||
previousState.phase` in the source means `Option.getD`). -/
inductive GamePhase where
  | LOBBY
  | PLAYING
  | GAME_OVER
deriving DecidableEq, Repr

/-- One roster row, as in `src/types.ts`.  `score = none` is the
JavaScript `null`; `isSpectator = none` is an absent optional
property. -/
@[ext]
structure Player where
  id : String
  name : String
  score : Option Int
  color : String
  isCheater : Bool
  isBot : Bool
  isSpectator : Option Bool
  finished : Bool
deriving DecidableEq, Repr

/-- The `GameState` record of `src/server/stateDiff.ts`. -/
@[ext]
structure GameState where
  players : List Player
  phase : GamePhase
deriving DecidableEq, Repr

/-- A sparse per-player update of `src/server/stateDiff.ts`.  Every
field except `id` is optional.  For `isSpectator` the source copies the
player's optional property verbatim, so an absent player property and
an absent delta field are the same value (`none`), exactly as in
JavaScript where both are `undefined`.  `score` distinguishes an absent
field (`none`) from a present null (`some none`). -/
structure PlayerDelta where
  id : String
  name : Option String
  color : Option String
  score : Option (Option Int)
  isCheater : Option Bool
  isBot : Option Bool
  isSpectator : Option Bool
  finished : Option Bool
deriving DecidableEq, Repr

/-- The `GameStateDelta` record of `src/server/stateDiff.ts`; an absent
`fullState` property reads as `false`. -/
structure GameStateDelta where
  players : Option (List PlayerDelta)
  phase : Option GamePhase
  fullState : Bool
deriving DecidableEq, Repr

/-- The all-fields delta entry built for a new player (and, on the
full-replacement path, for every player) in `computeStateDelta`. -/
def fullEntry (p : Player) : PlayerDelta :=
  { id := p.id
    name := some p.name
    color := some p.color
    score := some p.score
    isCheater := some p.isCheater
    isBot := some p.isBot
    isSpectator := p.isSpectator
    finished := some p.finished }

/-- The `hasChanges` flag of `computeStateDelta`: some field of the
current player differs (by ordinary inequality) from the previous
player.  Note it is set even when the only differing field is an
`isSpectator` that became absent, in which case the emitted entry
carries no field at all. -/
def hasChanges (prev cur : Player) : Bool :=
  decide (prev.name ≠ cur.name) || decide (prev.color ≠ cur.color) ||
  decide (prev.score ≠ cur.score) || decide (prev.isCheater ≠ cur.isCheater) ||
  decide (prev.isBot ≠ cur.isBot) || decide (prev.isSpectator ≠ cur.isSpectator) ||
  decide (prev.finished ≠ cur.finished)

/-- The changed-fields-only delta entry of `computeStateDelta` for an
existing player. -/
def diffEntry (prev cur : Player) : PlayerDelta :=
  { id := cur.id
    name := if prev.name = cur.name then none else some cur.name
    color := if prev.color = cur.color then none else some cur.color
    score := if prev.score = cur.score then none else some cur.score
    isCheater := if prev.isCheater = cur.isCheater then none else some cur.isCheater
    isBot := if prev.isBot = cur.isBot then none else some cur.isBot
    isSpectator := if prev.isSpectator = cur.isSpectator then none else cur.isSpectator
    finished := if prev.finished = cur.finished then none else some cur.finished }

/-- Insertion-ordered association list standing for a JavaScript
`Map<string, Player>`: `set` overwrites the existing entry in place or
appends a fresh one at the end. -/
def mapSet : List (String × Player) → String → Player → List (String × Player)
  | [], k, v => [(k, v)]
  | (k', v') :: rest, k, v =>
      if k' = k then (k, v) :: rest else (k', v') :: mapSet rest k v

/-- `Map.get`: the value stored under a key, if any. -/
def mapGet (m : List (String × Player)) (k : String) : Option Player :=
  (m.find? (fun e => e.1 == k)).map (fun e => e.2)

/-- `players.forEach(p => map.set(p.id, p))`, as used by both
`computeStateDelta` (for the previous-players map) and
`applyStateDelta` (for the working copy of the previous state). -/
def buildMap (l : List Player) : List (String × Player) :=
  l.foldl (fun m p => mapSet m p.id p) []

/-- `computeStateDelta` of `src/server/stateDiff.ts`.  If the phase
changed, a full-replacement delta carrying every player; otherwise one
entry per new or changed current player, removed players left
unrepresented, and the empty delta when nothing changed. -/
def computeStateDelta (previousState currentState : GameState) : GameStateDelta :=
  if previousState.phase ≠ currentState.phase then
    { players := some (currentState.players.map fullEntry)
      phase := some currentState.phase
      fullState := true }
  else
    let previousPlayersMap := buildMap previousState.players
    let playerDeltas := currentState.players.foldl
      (fun acc currentPlayer =>
        match mapGet previousPlayersMap currentPlayer.id with
        | none => acc ++ [fullEntry currentPlayer]
        | some previousPlayer =>
            if hasChanges previousPlayer currentPlayer then
              acc ++ [diffEntry previousPlayer currentPlayer]
            else acc) []
    if playerDeltas.isEmpty ∧ previousState.phase = currentState.phase then
      { players := none, phase := none, fullState := false }
    else
      { players := if playerDeltas.isEmpty then none else some playerDeltas
        phase := if previousState.phase ≠ currentState.phase
                 then some currentState.phase else none
        fullState := false }

/-- The full-replacement branch of `applyStateDelta`: every delta entry
is turned into a player, defaulting absent fields (`score` undefined ⇒
null, booleans `?? false`; `id`, `name`, `color` are asserted present
by the source with `!`, so their defaults are never exercised by a
delta produced from a state).  Note `isSpectator ?? false` manufactures
an explicit `false` where the source player may have had the property
absent. -/
def fullPlayerFromDelta (p : PlayerDelta) : Player :=
  { id := p.id
    name := p.name.getD ""
    color := p.color.getD ""
    score := p.score.getD none
    isCheater := p.isCheater.getD false
    isBot := p.isBot.getD false
    isSpectator := some (p.isSpectator.getD false)
    finished := p.finished.getD false }

/-- Merge of the present fields of a delta entry into an existing
player (the in-place update branch of `applyStateDelta`). -/
def mergePlayer (existing : Player) (d : PlayerDelta) : Player :=
  { id := existing.id
    name := match d.name with | some v => v | none => existing.name
    color := match d.color with | some v => v | none => existing.color
    score := match d.score with | some v => v | none => existing.score
    isCheater := match d.isCheater with | some v => v | none => existing.isCheater
    isBot := match d.isBot with | some v => v | none => existing.isBot
    isSpectator := match d.isSpectator with | some v => some v | none => existing.isSpectator
    finished := match d.finished with | some v => v | none => existing.finished }

/-- Construction of a player from a delta entry whose id is not in the
map (the "shouldn't happen in delta, but handle it" branch of
`applyStateDelta`): `name || ''`, `color || '#ffffff'` (so an empty
color string is replaced), `score` undefined ⇒ null, booleans
`?? false`. -/
def newPlayerFromDelta (d : PlayerDelta) : Player :=
  { id := d.id
    name := d.name.getD ""
    color := if d.color.getD "" = "" then "#ffffff" else d.color.getD ""
    score := d.score.getD none
    isCheater := d.isCheater.getD false
    isBot := d.isBot.getD false
    isSpectator := some (d.isSpectator.getD false)
    finished := d.finished.getD false }

/-- One step of the delta-merging loop of `applyStateDelta`. -/
def applyEntry (m : List (String × Player)) (d : PlayerDelta) : List (String × Player) :=
  match mapGet m d.id with
  | some existing => mapSet m d.id (mergePlayer existing d)
  | none => mapSet m d.id (newPlayerFromDelta d)

/-- `applyStateDelta` of `src/server/stateDiff.ts`.  The phase is
`delta.phase || previousState.phase`; since `GamePhase` is a string
enum of truthy values this is exactly `Option.getD`. -/
def applyStateDelta (previousState : GameState) (delta : GameStateDelta) : GameState :=
  if delta.fullState then
    { players := (delta.players.getD []).map fullPlayerFromDelta
      phase := delta.phase.getD previousState.phase }
  else
    let m := (delta.players.getD []).foldl applyEntry (buildMap previousState.players)
    { players := m.map (fun e => e.2)
      phase := delta.phase.getD previousState.phase }

/-! ## Wire codec helpers of `src/server/stateDiff.ts` -/

/-- The numeric value of one hexadecimal digit character, as recognised
by JavaScript `parseInt(·, 16)`; `none` for any other character. -/
def hexDigitVal (c : Char) : Option Nat :=
  if '0' ≤ c ∧ c ≤ '9' then some (c.toNat - '0'.toNat)
  else if 'a' ≤ c ∧ c ≤ 'f' then some (c.toNat - 'a'.toNat + 10)
  else if 'A' ≤ c ∧ c ≤ 'F' then some (c.toNat - 'A'.toNat + 10)
  else none

/-- `parseInt(s, 16)` on the character list of a color substring:
the value of the longest hex-digit prefix, `none` (NaN) when the first
character is not a hex digit. -/
def parseIntHex (s : List Char) : Option Nat :=
  let ds := s.takeWhile (fun c => (hexDigitVal c).isSome)
  if ds.isEmpty then none
  else some (ds.foldl (fun a c => a * 16 + (hexDigitVal c).getD 0) 0)

/-- `color.replace('#', '')`: remove the first occurrence of `#`. -/
def stripHash : List Char → List Char
  | [] => []
  | c :: rest => if c = '#' then rest else c :: stripHash rest

/-- `colorToInt` of `src/server/stateDiff.ts`: parse three 2-character
substrings as hex bytes and pack them as `0xRRGGBB`.  A NaN channel
(non-hex text, as in an `hsl(...)` color) is coerced to `0` by the
JavaScript `<<`/`|` operators. -/
def colorToInt (color : String) : Nat :=
  let hex := stripHash color.toList
  let r := (parseIntHex (hex.take 2)).getD 0
  let g := (parseIntHex ((hex.drop 2).take 2)).getD 0
  let b := (parseIntHex ((hex.drop 4).take 2)).getD 0
  (r <<< 16) ||| (g <<< 8) ||| b

/-- Lowercase hexadecimal digit character, as produced by JavaScript
`Number.prototype.toString(16)`. -/
def toHexDigit (n : Nat) : Char :=
  if n < 10 then Char.ofNat ('0'.toNat + n)
  else Char.ofNat ('a'.toNat + (n - 10))

/-- `v.toString(16).padStart(2, '0')` for a byte value `v ≤ 255`. -/
def hexByte (n : Nat) : String :=
  String.mk [toHexDigit (n / 16 % 16), toHexDigit (n % 16)]

/-- `intToColor` of `src/server/stateDiff.ts`. -/
def intToColor (colorInt : Nat) : String :=
  "#" ++ hexByte ((colorInt >>> 16) &&& 255) ++
    hexByte ((colorInt >>> 8) &&& 255) ++ hexByte (colorInt &&& 255)

/-- The protobuf-side player record of `src/server/stateDiff.ts`
(`game.Player`): color packed as an integer, null score as the sentinel
`-1`, `isSpectator` forced to a boolean. -/
structure ProtoPlayer where
  id : String
  name : String
  color : Nat
  score : Int
  isCheater : Bool
  isBot : Bool
  isSpectator : Bool
  finished : Bool
deriving DecidableEq, Repr

/-- `playerToProto` of `src/server/stateDiff.ts`. -/
def playerToProto (player : Player) : ProtoPlayer :=
  { id := player.id
    name := player.name
    color := colorToInt player.color
    score := match player.score with | none => -1 | some n => n
    isCheater := player.isCheater
    isBot := player.isBot
    isSpectator := player.isSpectator.getD false
    finished := player.finished }

/-- `protoToPlayer` of `src/server/stateDiff.ts`. -/
def protoToPlayer (protoPlayer : ProtoPlayer) : Player :=
  { id := protoPlayer.id
    name := protoPlayer.name
    color := intToColor protoPlayer.color
    score := if protoPlayer.score = -1 then none else some protoPlayer.score
    isCheater := protoPlayer.isCheater
    isBot := protoPlayer.isBot
    isSpectator := some protoPlayer.isSpectator
    finished := protoPlayer.finished }

/-- The bot color template of the `add_bot` handler in
`src/unnamed/part_012`: `hsl(${Math.random() * 360}, 100%, 50%)`, with
the stringified random hue passed in explicitly. -/
def botColor (hue : String) : String :=
  "hsl(" ++ hue ++ ", 100%, 50%)"

/-- Modelled from the spec: the spec asserts the codec boundary is
"lossy only in that it discards alpha/format metadata, never in color
value", which presumes an RGB denotation for every session color
string.  The denotation of the bot color `hsl(h, 100%, 50%)` is not in
`src/` (the browser's CSS engine resolves it); this is the standard
CSS HSL→RGB conversion at saturation 100% and lightness 50%, packed as
`0xRRGGBB` (channel interpolation floored to integers). -/
def hslBotPackedRgb (h : Nat) : Nat :=
  let hue := h % 360
  let t := hue % 120
  let x := if t < 60 then 255 * t / 60 else 255 * (120 - t) / 60
  let rgb : Nat × Nat × Nat :=
    if hue < 60 then (255, x, 0)
    else if hue < 120 then (x, 255, 0)
    else if hue < 180 then (0, 255, x)
    else if hue < 240 then (0, x, 255)
    else if hue < 300 then (x, 0, 255)
    else (255, 0, x)
  rgb.1 * 65536 + rgb.2.1 * 256 + rgb.2.2

/-! ## Session state and socket handlers of `src/unnamed/part_012` -/

/-- The mutable server globals: roster, phase, the dropped-balls set,
and the key sets of the two timer maps. -/
structure ServerState where
  players : List Player
  gamePhase : GamePhase
  droppedBalls : List String
  botDropTimers : List String
  scoreTimeoutTimers : List String
deriving DecidableEq, Repr

/-- Outbound socket messages.  `stateUpdate` is `io.emit('state_update',
{players, phase})` (a broadcast); `errorMessage` is the unicast
`socket.emit('error_message', text)` to the named connection.  The
random x coordinate of `spawn_ball` and the payload of `laser_fired`
carry no roster information and are omitted. -/
inductive OutMsg where
  | stateUpdate (players : List Player) (phase : GamePhase)
  | errorMessage (target : String) (text : String)
  | spawnBall (playerId : String)
  | ballRemoved (ballId : String)
  | laserFired
deriving DecidableEq, Repr

/-- The non-spectator roster (`players.filter(p => !p.isSpectator)`);
an absent `isSpectator` property is falsy. -/
def activeRoster (l : List Player) : List Player :=
  l.filter (fun p => !(p.isSpectator.getD false))

/-- `checkGameOver` of `src/unnamed/part_012`: from `PLAYING`, if at
least one non-spectator exists and all are finished, move to
`GAME_OVER` and broadcast. -/
def checkGameOver (s : ServerState) : ServerState × List OutMsg :=
  if s.gamePhase ≠ GamePhase.PLAYING then (s, [])
  else
    let activePlayers := activeRoster s.players
    if 0 < activePlayers.length ∧ activePlayers.all (fun p => p.finished) = true then
      ({ s with gamePhase := GamePhase.GAME_OVER },
       [OutMsg.stateUpdate s.players GamePhase.GAME_OVER])
    else (s, [])

/-- `players.findIndex(p => p.id === pid)` followed by an in-place
mutation of that element: update the first player with the given id,
leave the list unchanged when absent. -/
def updateFirstById : List Player → String → (Player → Player) → List Player
  | [], _, _ => []
  | p :: rest, pid, f =>
      if p.id = pid then f p :: rest else p :: updateFirstById rest pid f

/-- `players.splice(botIndex, 1)` at `findIndex(p => p.isBot)`: drop
the first bot. -/
def removeFirstBot : List Player → List Player
  | [] => []
  | p :: rest => if p.isBot then rest else p :: removeFirstBot rest

/-- `scheduleBotDrops` of `src/unnamed/part_012`: give every
non-spectator, unfinished bot without a pending drop timer and without
a dropped ball a fresh drop timer (the random delay and x position are
not observable in the key set). -/
def scheduleBotDrops (s : ServerState) : ServerState :=
  let bots := s.players.filter
    (fun p => p.isBot && !(p.isSpectator.getD false) && !p.finished)
  { s with
    botDropTimers := bots.foldl
      (fun acc bot =>
        if acc.contains bot.id then acc
        else if s.droppedBalls.contains bot.id then acc
        else acc ++ [bot.id]) s.botDropTimers }

/-- `name.toLowerCase()` on the character list; session names are
ASCII, where this agrees with the JavaScript Unicode lowercasing. -/
def toLowerStr (s : String) : String :=
  String.mk (s.data.map Char.toLower)

/-- The `join_game` handler.  At the 50-player limit it first evicts
the first bot (clearing that bot's two timers) or rejects outright;
only then does it run the case-insensitive duplicate-name check, and
finally appends the client payload with the connection id substituted
for the payload id. -/
def joinGame (socketId : String) (newPlayer : Player) (s : ServerState) :
    ServerState × List OutMsg :=
  let step :=
    if 50 ≤ s.players.length then
      match s.players.find? (fun p => p.isBot) with
      | some removedBot =>
          some { s with
                 players := removeFirstBot s.players
                 botDropTimers := s.botDropTimers.filter (fun k => k ≠ removedBot.id)
                 scoreTimeoutTimers :=
                   s.scoreTimeoutTimers.filter (fun k => k ≠ removedBot.id) }
      | none => none
    else some s
  match step with
  | none => (s, [OutMsg.errorMessage socketId "Max player limit has been reached"])
  | some s1 =>
      if s1.players.any (fun p => toLowerStr p.name == toLowerStr newPlayer.name) then
        (s1, [OutMsg.errorMessage socketId "Name already taken"])
      else
        let player := { newPlayer with id := socketId }
        ({ s1 with players := s1.players ++ [player] },
         [OutMsg.stateUpdate (s1.players ++ [player]) s1.gamePhase])

/-- The `add_bot` handler, with the randomly generated unique name, the
synthetic id and the random hue passed in as parameters. -/
def addBot (botName botId hue : String) (socketId : String) (s : ServerState) :
    ServerState × List OutMsg :=
  if 50 ≤ s.players.length then
    (s, [OutMsg.errorMessage socketId "Max player limit has been reached"])
  else
    let bot : Player :=
      { id := botId, name := botName, score := none, color := botColor hue
        isCheater := false, isBot := true, isSpectator := some false
        finished := false }
    ({ s with players := s.players ++ [bot] },
     [OutMsg.stateUpdate (s.players ++ [bot]) s.gamePhase])

/-- The `start_game` handler: only from `LOBBY`; resets `finished` to
the spectator status (`!!p.isSpectator`), clears dropped balls and all
bot drop timers, reschedules bot drops and broadcasts. -/
def startGame (s : ServerState) : ServerState × List OutMsg :=
  if s.gamePhase = GamePhase.LOBBY then
    let players' := s.players.map (fun p => { p with finished := p.isSpectator.getD false })
    let s1 := scheduleBotDrops
      { s with gamePhase := GamePhase.PLAYING, players := players'
               droppedBalls := [], botDropTimers := [] }
    (s1, [OutMsg.stateUpdate players' GamePhase.PLAYING])
  else (s, [])

/-- The `reset_lobby` handler: clears both timer maps, the roster and
the dropped-balls set, returns to `LOBBY` and broadcasts. -/
def resetLobby (s : ServerState) : ServerState × List OutMsg :=
  let _ := s
  ({ players := [], gamePhase := GamePhase.LOBBY, droppedBalls := []
     botDropTimers := [], scoreTimeoutTimers := [] },
   [OutMsg.stateUpdate [] GamePhase.LOBBY])

/-- The `play_again` handler: scores back to null (0 for spectators),
`finished` back to the spectator status, all tracking and both timer
maps cleared, phase to `PLAYING`, bot drops rescheduled, broadcast. -/
def playAgain (s : ServerState) : ServerState × List OutMsg :=
  let players' := s.players.map (fun p =>
    { p with score := if p.isSpectator.getD false then some 0 else none
             finished := p.isSpectator.getD false })
  let s1 := scheduleBotDrops
    { players := players', gamePhase := GamePhase.PLAYING, droppedBalls := []
      botDropTimers := [], scoreTimeoutTimers := [] }
  (s1, [OutMsg.stateUpdate players' GamePhase.PLAYING])

/-- `scoreTimeoutTimers.set(pid, timer)` on the key set. -/
def keySet (l : List String) (k : String) : List String :=
  if l.contains k then l else l ++ [k]

/-- The `drop_ball` handler: rejected for unknown senders, spectators,
double drops, finished players and outside `PLAYING`; otherwise marks
the ball dropped, arms the 15-second scoring timeout and broadcasts the
spawn. -/
def dropBall (socketId : String) (s : ServerState) : ServerState × List OutMsg :=
  match s.players.find? (fun p => p.id == socketId) with
  | none => (s, [])
  | some player =>
      if player.isSpectator.getD false then (s, [])
      else if s.droppedBalls.contains socketId then (s, [])
      else if player.finished then (s, [])
      else if s.gamePhase ≠ GamePhase.PLAYING then (s, [])
      else
        ({ s with droppedBalls := s.droppedBalls ++ [socketId]
                  scoreTimeoutTimers := keySet s.scoreTimeoutTimers socketId },
         [OutMsg.spawnBall socketId])

/-- The body of the 15-second scoring timeout callback, identical for
the human timer armed in `drop_ball` and the bot timer armed in the
bot drop callback: if the participant still exists and is not
finished, zero their score, mark them finished, broadcast and
re-evaluate game over; in every case remove the timer key. -/
def timeoutFire (pid : String) (s : ServerState) : ServerState × List OutMsg :=
  let t :=
    match s.players.find? (fun p => p.id == pid) with
    | some p =>
        if !p.finished then
          let players' := updateFirstById s.players pid
            (fun q => { q with score := some 0, finished := true })
          let g := checkGameOver { s with players := players' }
          (g.1, [OutMsg.stateUpdate players' s.gamePhase] ++ g.2)
        else (s, [])
    | none => (s, [])
  ({ t.1 with scoreTimeoutTimers := t.1.scoreTimeoutTimers.filter (fun k => k ≠ pid) },
   t.2)

/-- `data.playerId || socket.id`: an absent or empty payload id falls
back to the sender. -/
def resolveTarget (dataPlayerId : Option String) (senderId : String) : String :=
  match dataPlayerId with
  | none => senderId
  | some pid => if pid = "" then senderId else pid

/-- The `score_update` handler: resolve the target, require the sender
to be the target itself or the target to be a bot, then overwrite the
score, set `finished`, clear the target's scoring timeout, broadcast
and re-evaluate game over.  There is no check of the target's previous
`finished` flag. -/
def scoreUpdate (senderId : String) (dataPlayerId : Option String) (points : Int)
    (s : ServerState) : ServerState × List OutMsg :=
  let targetPlayerId := resolveTarget dataPlayerId senderId
  match s.players.find? (fun p => p.id == targetPlayerId) with
  | none => (s, [])
  | some p =>
      if targetPlayerId = senderId ∨ p.isBot = true then
        let players' := updateFirstById s.players targetPlayerId
          (fun q => { q with score := some points, finished := true })
        let g := checkGameOver
          { s with players := players'
                   scoreTimeoutTimers :=
                     s.scoreTimeoutTimers.filter (fun k => k ≠ targetPlayerId) }
        (g.1, [OutMsg.stateUpdate players' s.gamePhase] ++ g.2)
      else (s, [])

/-- The `destroy_ball` handler: if the ball owner exists, zero their
score, mark them finished, clear their scoring timeout, broadcast the
removal and the state, and re-evaluate game over.  The sending
connection plays no role. -/
def destroyBall (ballId ballOwnerId : String) (s : ServerState) :
    ServerState × List OutMsg :=
  match s.players.find? (fun p => p.id == ballOwnerId) with
  | none => (s, [])
  | some _ =>
      let players' := updateFirstById s.players ballOwnerId
        (fun q => { q with score := some 0, finished := true })
      let g := checkGameOver
        { s with players := players'
                 scoreTimeoutTimers :=
                   s.scoreTimeoutTimers.filter (fun k => k ≠ ballOwnerId) }
      (g.1, [OutMsg.ballRemoved ballId, OutMsg.stateUpdate players' s.gamePhase] ++ g.2)

/-- The `disconnect` handler: drop the sender from the roster; an empty
roster resets the phase to `LOBBY`, otherwise game over is
re-evaluated; then the state is broadcast.  Neither timer map is
touched. -/
def disconnect (socketId : String) (s : ServerState) : ServerState × List OutMsg :=
  let players' := s.players.filter (fun p => p.id ≠ socketId)
  if players'.isEmpty then
    let s1 := { s with players := players', gamePhase := GamePhase.LOBBY }
    (s1, [OutMsg.stateUpdate players' GamePhase.LOBBY])
  else
    let g := checkGameOver { s with players := players' }
    (g.1, g.2 ++ [OutMsg.stateUpdate players' g.1.gamePhase])

/-- The closed set of inbound events processed by the single-threaded
socket loop (timer callbacks enqueue through the same loop). -/
inductive GameEvent where
  | joinGameEv (newPlayer : Player)
  | addBotEv (botName botId hue : String)
  | startGameEv
  | resetLobbyEv
  | playAgainEv
  | dropBallEv
  | scoreUpdateEv (dataPlayerId : Option String) (points : Int)
  | destroyBallEv (ballId ballOwnerId : String)
  | disconnectEv
  | timeoutFireEv (pid : String)
deriving DecidableEq, Repr

/-- Dispatch of one inbound event from the named connection. -/
def handleEvent (senderId : String) : GameEvent → ServerState → ServerState × List OutMsg
  | GameEvent.joinGameEv np => joinGame senderId np
  | GameEvent.addBotEv n i h => addBot n i h senderId
  | GameEvent.startGameEv => startGame
  | GameEvent.resetLobbyEv => resetLobby
  | GameEvent.playAgainEv => playAgain
  | GameEvent.dropBallEv => dropBall senderId
  | GameEvent.scoreUpdateEv pid pts => scoreUpdate senderId pid pts
  | GameEvent.destroyBallEv bid oid => destroyBall bid oid
  | GameEvent.disconnectEv => disconnect senderId
  | GameEvent.timeoutFireEv pid => timeoutFire pid

/-- The events C2 calls state-mutating: score reports, ball
destruction, removal, and a scoring timeout firing. -/
def IsMutatingEvent : GameEvent → Prop
  | GameEvent.scoreUpdateEv _ _ => True
  | GameEvent.destroyBallEv _ _ => True
  | GameEvent.disconnectEv => True
  | GameEvent.timeoutFireEv _ => True
  | _ => False

/-- First player with the given id — the id-keyed read used to compare
rosters as maps. -/
def pLookup (l : List Player) (i : String) : Option Player :=
  l.find? (fun p => p.id = i)

/-- The game-over condition on a roster: at least one non-spectator
and every non-spectator finished. -/
def gameOverCond (l : List Player) : Bool :=
  decide (0 < (activeRoster l).length) && (activeRoster l).all (fun p => p.finished)

/-! ## Proof-support definitions -/

/-- The player a single delta entry leaves in the working map of
`applyStateDelta`: a merge when the id is present, a freshly
constructed player otherwise. -/
def stepVal (m : List (String × Player)) (d : PlayerDelta) : Player :=
  match mapGet m d.id with
  | some existing => mergePlayer existing d
  | none => newPlayerFromDelta d

/-- The delta entry `computeStateDelta` emits for one current player
against the previous roster (`none` when the player is unchanged). -/
def entryFor (prev : List Player) (b : Player) : Option PlayerDelta :=
  match pLookup prev b.id with
  | none => some (fullEntry b)
  | some previousPlayer =>
      if hasChanges previousPlayer b then some (diffEntry previousPlayer b) else none

/-- Every entry of the working map stores a player under that player's
own id. -/
def WellKeyed (m : List (String × Player)) : Prop :=
  ∀ e ∈ m, e.2.id = e.1

/-! ## Concrete example inputs used by counterexamples and witnesses -/

/-- A join payload as a hostile or buggy client may send it: a
non-spectator with a pre-filled score and `finished = true`. -/
def alicePayload : Player :=
  { id := "pending", name := "Alice", score := some 7, color := "#123456"
    isCheater := false, isBot := false, isSpectator := some false, finished := true }

/-- The same hostile payload under a name that collides with nobody. -/
def zoePayload : Player :=
  { alicePayload with name := "Zoe" }

/-- An empty lobby. -/
def lobbyEmpty : ServerState :=
  { players := [], gamePhase := GamePhase.LOBBY, droppedBalls := []
    botDropTimers := [], scoreTimeoutTimers := [] }

/-- A bot roster row. -/
def botPlayer : Player :=
  { id := "bot-1", name := "NeonBot", score := none, color := botColor "1"
    isCheater := false, isBot := true, isSpectator := some false, finished := false }

/-- A human roster row whose name collides case-insensitively with
`alicePayload`. -/
def aliceActive : Player :=
  { id := "h1", name := "alice", score := none, color := "#aaaaaa"
    isCheater := false, isBot := false, isSpectator := some false, finished := false }

/-- A lobby at the 50-player capacity containing one evictable bot,
which has a pending drop timer and a pending scoring timeout. -/
def fullLobby : ServerState :=
  { players := aliceActive :: List.replicate 49 botPlayer
    gamePhase := GamePhase.LOBBY, droppedBalls := []
    botDropTimers := ["bot-1"], scoreTimeoutTimers := ["bot-1"] }

/-- A finished competitor holding a positive score. -/
def finishedP1 : Player :=
  { id := "p1", name := "Ann", score := some 100, color := "#ab0012"
    isCheater := false, isBot := false, isSpectator := some false, finished := true }

/-- A session already in `GAME_OVER` with `finishedP1` on the roster. -/
def gameOverState : ServerState :=
  { players := [finishedP1], gamePhase := GamePhase.GAME_OVER, droppedBalls := ["p1"]
    botDropTimers := [], scoreTimeoutTimers := [] }

/-- A `PLAYING` session in which `finishedP1` has dropped and scored,
with their scoring timeout still pending. -/
def playingFinState : ServerState :=
  { players := [finishedP1], gamePhase := GamePhase.PLAYING, droppedBalls := ["p1"]
    botDropTimers := [], scoreTimeoutTimers := ["p1"] }

/-- The same competitor before scoring. -/
def unfinishedP1 : Player :=
  { finishedP1 with score := none, finished := false }

/-- A `PLAYING` session in which `unfinishedP1` has dropped a ball and
awaits a score, with the scoring timeout pending. -/
def playingUnfinState : ServerState :=
  { players := [unfinishedP1], gamePhase := GamePhase.PLAYING, droppedBalls := ["p1"]
    botDropTimers := [], scoreTimeoutTimers := ["p1"] }

/-- A roster row whose optional `isSpectator` property is absent, as
`src/types.ts` permits. -/
def specNoneP : Player :=
  { id := "x", name := "A", score := none, color := "#abcdef"
    isCheater := false, isBot := false, isSpectator := none, finished := false }

/-- Previous snapshot for the delta round trip: empty lobby roster. -/
def c1Astate : GameState := { players := [], phase := GamePhase.LOBBY }

/-- Current snapshot for the delta round trip: one player with an
absent `isSpectator` property, and a phase change. -/
def c1Bstate : GameState := { players := [specNoneP], phase := GamePhase.PLAYING }

/-- Previous snapshot for the sparse-path witness. -/
def c1WAstate : GameState :=
  { players := [unfinishedP1], phase := GamePhase.PLAYING }

/-- Current snapshot for the sparse-path witness: the existing player
scored and a second player joined. -/
def c1WBstate : GameState :=
  { players := [finishedP1,
      { id := "h2", name := "Bea", score := none, color := "#00ff00"
        isCheater := false, isBot := false, isSpectator := some false
        finished := false }]
    phase := GamePhase.PLAYING }

/-! ## Helper lemmas: game-over evaluation and roster updates -/

theorem checkGameOver_players (s : ServerState) :
    (checkGameOver s).1.players = s.players := by
  unfold checkGameOver
  dsimp only
  split
  · rfl
  · split <;> rfl

theorem checkGameOver_botTimers (s : ServerState) :
    (checkGameOver s).1.botDropTimers = s.botDropTimers := by
  unfold checkGameOver
  dsimp only
  split
  · rfl
  · split <;> rfl

theorem checkGameOver_scoreTimers (s : ServerState) :
    (checkGameOver s).1.scoreTimeoutTimers = s.scoreTimeoutTimers := by
  unfold checkGameOver
  dsimp only
  split
  · rfl
  · split <;> rfl

theorem checkGameOver_phase (s : ServerState) :
    (checkGameOver s).1.gamePhase = GamePhase.GAME_OVER ↔
      (s.gamePhase = GamePhase.GAME_OVER ∨
        (s.gamePhase = GamePhase.PLAYING ∧ gameOverCond s.players = true)) := by
  unfold checkGameOver
  dsimp only
  split
  · rename_i hne
    constructor
    · intro h
      exact Or.inl h
    · rintro (h | ⟨hp, _⟩)
      · exact h
      · exact absurd hp hne
  · rename_i hne
    push_neg at hne
    split
    · rename_i hcond
      simp only [gameOverCond, activeRoster]
      constructor
      · intro _
        refine Or.inr ⟨hne, ?_⟩
        simp only [Bool.and_eq_true, decide_eq_true_eq]
        exact ⟨hcond.1, hcond.2⟩
      · intro _
        trivial
    · rename_i hcond
      constructor
      · intro h
        rw [hne] at h
        exact absurd h (by simp)
      · rintro (h | ⟨_, hc⟩)
        · rw [hne] at h
          exact absurd h (by simp)
        · exfalso
          apply hcond
          simp only [gameOverCond, activeRoster, Bool.and_eq_true, decide_eq_true_eq] at hc
          exact ⟨hc.1, hc.2⟩

theorem pLookup_updateFirstById (l : List Player) (pid : String)
    (f : Player → Player) (hf : ∀ q, (f q).id = q.id) :
    pLookup (updateFirstById l pid f) pid = (pLookup l pid).map f := by
  induction l with
  | nil => rfl
  | cons p rest ih =>
      by_cases h : p.id = pid
      · simp [updateFirstById, pLookup, List.find?, h, hf]
      · simp only [updateFirstById, if_neg h]
        simp only [pLookup, List.find?] at ih ⊢
        simp [h, ih]

theorem mem_filter_ne_self (l : List String) (a : String) :
    a ∉ l.filter (fun k => k ≠ a) := by
  intro h
  have := List.of_mem_filter h
  simp at this

/-! ## C8: wire round trip preserves the score and the null sentinel -/

/-- C8: converting a Participant to its wire form and back preserves
the score including the null distinction — for a non-negative integer
score `protoToPlayer (playerToProto p)` has the same score, and a null
score round-trips to null, because null is encoded as the sentinel
`-1` and never conflated with `0`. -/
theorem c8_score_roundtrip (p : Player) :
    (p.score = none → (protoToPlayer (playerToProto p)).score = none)
    ∧ (∀ n : Int, 0 ≤ n → p.score = some n →
        (protoToPlayer (playerToProto p)).score = some n) := by
  constructor
  · intro h
    simp [protoToPlayer, playerToProto, h]
  · intro n hn h
    have hne : ¬(n = -1) := by omega
    simp [protoToPlayer, playerToProto, h, hne]

/-- Witness for C8 at a spectator with score 0 and a competitor with a
null score. -/
theorem c8_score_roundtrip_witness :
    (protoToPlayer (playerToProto unfinishedP1)).score = none
    ∧ (protoToPlayer (playerToProto
        { finishedP1 with score := some 0, isSpectator := some true })).score = some 0 :=
  ⟨(c8_score_roundtrip unfinishedP1).1 rfl,
   (c8_score_roundtrip _).2 0 (by norm_num) rfl⟩

/-! ## C10: destroy_ball ignores the sending connection -/

/-- C10: the effect of a `destroy_ball` event does not depend on the
sending connection: two runs differing only in the sender produce the
same session state and messages, and any connection can set any
existing participant's score to 0 and `finished` to true — there is no
ownership or authorization check. -/
theorem c10_destroyBall_sender_independent :
    ∀ (sender1 sender2 ballId ballOwnerId : String) (s : ServerState),
      handleEvent sender1 (GameEvent.destroyBallEv ballId ballOwnerId) s =
        handleEvent sender2 (GameEvent.destroyBallEv ballId ballOwnerId) s
      ∧ (∀ p, s.players.find? (fun q => q.id == ballOwnerId) = some p →
          pLookup (handleEvent sender1
              (GameEvent.destroyBallEv ballId ballOwnerId) s).1.players ballOwnerId =
            some { p with score := some 0, finished := true }) := by
  intro s1 s2 bid oid s
  refine ⟨rfl, ?_⟩
  intro p hp
  show pLookup (destroyBall bid oid s).1.players oid = _
  unfold destroyBall
  rw [hp]
  dsimp only
  rw [checkGameOver_players]
  rw [pLookup_updateFirstById s.players oid
    (fun q => { q with score := some 0, finished := true }) (fun q => rfl)]
  have hpl : pLookup s.players oid = some p := hp
  rw [hpl]
  rfl

/-- Witness for C10: a stranger connection zeroes `finishedP1`. -/
theorem c10_destroyBall_sender_independent_witness :
    pLookup (handleEvent "stranger"
        (GameEvent.destroyBallEv "ball-7" "p1") playingFinState).1.players "p1" =
      some { finishedP1 with score := some 0, finished := true } :=
  (c10_destroyBall_sender_independent "stranger" "other" "ball-7" "p1"
    playingFinState).2 finishedP1 rfl

/-! ## C3: a score report for a finished participant is *not* ignored -/

/-- C3 counterexample: `finishedP1` is already finished with score 100,
yet processing a `score_update` for them overwrites the score with 5 —
the handler has no `finished` guard, so the claim that the report
"leaves their score ... unchanged" is false. -/
theorem c3_counterexample :
    finishedP1.finished = true
    ∧ (handleEvent "p1" (GameEvent.scoreUpdateEv none 5)
        playingFinState).1.players ≠ playingFinState.players
    ∧ (handleEvent "p1" (GameEvent.scoreUpdateEv none 5)
        playingFinState).1.players.map Player.score = [some 5] := by
  refine ⟨rfl, ?_, rfl⟩
  decide

/-- C3 amended: recording a score (via `score_update`, or via
`destroy_ball` which maps to a zero score) takes effect regardless of
the participant's `finished` flag: whenever the target exists (and, for
`score_update`, the sender is the target or the target is a bot), the
target's score is overwritten and `finished` is set to true — even for
an already-finished participant.  Only the timeout callbacks check
`finished`. -/
theorem c3_amended :
    (∀ (s : ServerState) (sender tid : String) (pts : Int) (p : Player),
       tid ≠ "" →
       s.players.find? (fun q => q.id == tid) = some p →
       (tid = sender ∨ p.isBot = true) →
       pLookup (handleEvent sender (GameEvent.scoreUpdateEv (some tid) pts) s).1.players
           tid = some { p with score := some pts, finished := true })
    ∧ (∀ (s : ServerState) (sender bid oid : String) (p : Player),
        s.players.find? (fun q => q.id == oid) = some p →
        pLookup (handleEvent sender (GameEvent.destroyBallEv bid oid) s).1.players
            oid = some { p with score := some 0, finished := true }) := by
  constructor
  · intro s sender tid pts p htid hp hauth
    show pLookup (scoreUpdate sender (some tid) pts s).1.players tid = _
    unfold scoreUpdate
    have hres : resolveTarget (some tid) sender = tid := by
      simp [resolveTarget, htid]
    rw [hres]
    dsimp only
    rw [hp]
    dsimp only
    rw [if_pos hauth]
    dsimp only
    rw [checkGameOver_players]
    rw [pLookup_updateFirstById s.players tid
      (fun q => { q with score := some pts, finished := true }) (fun q => rfl)]
    have hpl : pLookup s.players tid = some p := hp
    rw [hpl]
    rfl
  · intro s sender bid oid p hp
    show pLookup (destroyBall bid oid s).1.players oid = _
    unfold destroyBall
    rw [hp]
    dsimp only
    rw [checkGameOver_players]
    rw [pLookup_updateFirstById s.players oid
      (fun q => { q with score := some 0, finished := true }) (fun q => rfl)]
    have hpl : pLookup s.players oid = some p := hp
    rw [hpl]
    rfl

/-- Witness for C3 amended: both paths overwrite the already-finished
`finishedP1`. -/
theorem c3_amended_witness :
    pLookup (handleEvent "p1" (GameEvent.scoreUpdateEv (some "p1") 5)
        playingFinState).1.players "p1" =
      some { finishedP1 with score := some 5, finished := true }
    ∧ pLookup (handleEvent "anyone" (GameEvent.destroyBallEv "b" "p1")
        gameOverState).1.players "p1" =
      some { finishedP1 with score := some 0, finished := true } :=
  ⟨c3_amended.1 playingFinState "p1" "p1" 5 finishedP1 (by decide) rfl (Or.inl rfl),
   c3_amended.2 gameOverState "anyone" "b" "p1" finishedP1 rfl⟩


/-! ## Helper lemmas: branch behavior of the scoring timeout -/

theorem timeoutFire_players_found (s : ServerState) (pid : String) (p : Player)
    (hp : s.players.find? (fun q => q.id == pid) = some p) (hfin : p.finished = false) :
    (timeoutFire pid s).1.players =
      updateFirstById s.players pid
        (fun q => { q with score := some 0, finished := true }) := by
  simp only [timeoutFire, hp, hfin, Bool.not_false, if_true]
  rw [checkGameOver_players]

theorem timeoutFire_phase_found (s : ServerState) (pid : String) (p : Player)
    (hp : s.players.find? (fun q => q.id == pid) = some p) (hfin : p.finished = false) :
    (timeoutFire pid s).1.gamePhase =
      (checkGameOver { s with players := updateFirstById s.players pid (fun q => { q with score := some 0, finished := true }) }).1.gamePhase := by
  simp only [timeoutFire, hp, hfin, Bool.not_false, if_true]

theorem timeoutFire_players_none (s : ServerState) (pid : String)
    (hp : s.players.find? (fun q => q.id == pid) = none) :
    (timeoutFire pid s).1.players = s.players := by
  simp only [timeoutFire, hp]

theorem timeoutFire_players_finished (s : ServerState) (pid : String) (p : Player)
    (hp : s.players.find? (fun q => q.id == pid) = some p) (hfin : p.finished = true) :
    (timeoutFire pid s).1.players = s.players := by
  simp [timeoutFire, hp, hfin]

theorem timeoutFire_phase_noop (s : ServerState) (pid : String)
    (h : (s.players.find? (fun q => q.id == pid) = none) ∨
         (∃ p, s.players.find? (fun q => q.id == pid) = some p ∧ p.finished = true)) :
    (timeoutFire pid s).1.gamePhase = s.gamePhase := by
  rcases h with h | ⟨p, hp, hfin⟩
  · simp only [timeoutFire, h]
  · simp [timeoutFire, hp, hfin]

/-! ## C5: scoring-timeout firing semantics -/

/-- C5: when a scoring timeout fires for a participant, then if that
participant still exists and is not finished, their score is set to 0,
their `finished` flag to true, and game-over evaluation is triggered
(the phase becomes `GAME_OVER` exactly when it already was, or when it
was `PLAYING` and the updated roster satisfies the game-over
condition); if the participant is absent or already finished, no
participant state changes. -/
theorem c5_timeout_fire (s : ServerState) (pid : String) :
    (∀ p, s.players.find? (fun q => q.id == pid) = some p → p.finished = false →
       pLookup (timeoutFire pid s).1.players pid =
         some { p with score := some (0:Int), finished := true }
       ∧ ((timeoutFire pid s).1.gamePhase = GamePhase.GAME_OVER ↔
           (s.gamePhase = GamePhase.GAME_OVER ∨
            (s.gamePhase = GamePhase.PLAYING ∧
              gameOverCond (timeoutFire pid s).1.players = true))))
    ∧ (s.players.find? (fun q => q.id == pid) = none →
        (timeoutFire pid s).1.players = s.players)
    ∧ (∀ p, s.players.find? (fun q => q.id == pid) = some p → p.finished = true →
        (timeoutFire pid s).1.players = s.players) := by
  refine ⟨?_, ?_, ?_⟩
  · intro p hp hfin
    have hplayers := timeoutFire_players_found s pid p hp hfin
    constructor
    · rw [hplayers]
      rw [pLookup_updateFirstById s.players pid
        (fun q => { q with score := some 0, finished := true }) (fun q => rfl)]
      have hpl : pLookup s.players pid = some p := hp
      rw [hpl]
      rfl
    · rw [timeoutFire_phase_found s pid p hp hfin, hplayers]
      exact checkGameOver_phase _
  · intro hnone
    exact timeoutFire_players_none s pid hnone
  · intro p hp hfin
    exact timeoutFire_players_finished s pid p hp hfin

/-- Witness for C5 at a `PLAYING` session with one unfinished
competitor whose timeout fires. -/
theorem c5_timeout_fire_witness :
    pLookup (timeoutFire "p1" playingUnfinState).1.players "p1" =
      some { unfinishedP1 with score := some (0:Int), finished := true }
    ∧ ((timeoutFire "p1" playingUnfinState).1.gamePhase = GamePhase.GAME_OVER ↔
        (playingUnfinState.gamePhase = GamePhase.GAME_OVER ∨
         (playingUnfinState.gamePhase = GamePhase.PLAYING ∧
           gameOverCond (timeoutFire "p1" playingUnfinState).1.players = true))) :=
  (c5_timeout_fire playingUnfinState "p1").1 unfinishedP1 rfl rfl

/-! ## C4: timer cleanup on removal -/

/-- C4 counterexample: `finishedP1` has a pending scoring-timeout entry
and then disconnects; the participant is gone from the roster, yet the
timer entry keyed by "p1" is still present — the disconnect handler
never touches the timer maps. -/
theorem c4_counterexample :
    playingFinState.scoreTimeoutTimers = ["p1"]
    ∧ (handleEvent "p1" GameEvent.disconnectEv playingFinState).1.players.all
        (fun p => p.id ≠ "p1") = true
    ∧ "p1" ∈ (handleEvent "p1" GameEvent.disconnectEv playingFinState).1.scoreTimeoutTimers := by
  decide

/-- C4 amended: when a bot is evicted to make room for a join, both of
the evicted bot's timer entries are cancelled and deleted in the same
step, and a full roster reset (`reset_lobby`) leaves both timer tables
empty; a disconnect, by contrast, removes the participant but leaves
both timer tables exactly as they were (the stale timer is neutralised
only later, by the re-validation inside the timer callback). -/
theorem c4_amended :
    (∀ (s : ServerState) (sender : String) (np b : Player),
       50 ≤ s.players.length →
       s.players.find? (fun p => p.isBot) = some b →
       b.id ∉ (handleEvent sender (GameEvent.joinGameEv np) s).1.botDropTimers
       ∧ b.id ∉ (handleEvent sender (GameEvent.joinGameEv np) s).1.scoreTimeoutTimers)
    ∧ (∀ (s : ServerState) (sender : String),
        (handleEvent sender GameEvent.resetLobbyEv s).1.botDropTimers = []
        ∧ (handleEvent sender GameEvent.resetLobbyEv s).1.scoreTimeoutTimers = [])
    ∧ (∀ (s : ServerState) (sender : String),
        (handleEvent sender GameEvent.disconnectEv s).1.botDropTimers = s.botDropTimers
        ∧ (handleEvent sender GameEvent.disconnectEv s).1.scoreTimeoutTimers =
            s.scoreTimeoutTimers) := by
  refine ⟨?_, ?_, ?_⟩
  · intro s sender np b hlen hb
    show b.id ∉ (joinGame sender np s).1.botDropTimers
      ∧ b.id ∉ (joinGame sender np s).1.scoreTimeoutTimers
    unfold joinGame
    rw [if_pos hlen, hb]
    dsimp only
    split
    · exact ⟨mem_filter_ne_self _ _, mem_filter_ne_self _ _⟩
    · exact ⟨mem_filter_ne_self _ _, mem_filter_ne_self _ _⟩
  · intro s sender
    exact ⟨rfl, rfl⟩
  · intro s sender
    show (disconnect sender s).1.botDropTimers = s.botDropTimers
      ∧ (disconnect sender s).1.scoreTimeoutTimers = s.scoreTimeoutTimers
    unfold disconnect
    dsimp only
    split
    · exact ⟨rfl, rfl⟩
    · exact ⟨checkGameOver_botTimers _, checkGameOver_scoreTimers _⟩

/-- Witness for C4 amended: the full lobby evicts `botPlayer`, whose
two pending timer entries disappear; a reset empties both tables; a
disconnect leaves them alone. -/
theorem c4_amended_witness :
    ("bot-1" ∉ (handleEvent "sock2" (GameEvent.joinGameEv alicePayload) fullLobby).1.botDropTimers
     ∧ "bot-1" ∉ (handleEvent "sock2" (GameEvent.joinGameEv alicePayload) fullLobby).1.scoreTimeoutTimers)
    ∧ ((handleEvent "x" GameEvent.resetLobbyEv gameOverState).1.botDropTimers = []
       ∧ (handleEvent "x" GameEvent.resetLobbyEv gameOverState).1.scoreTimeoutTimers = [])
    ∧ ((handleEvent "h1" GameEvent.disconnectEv fullLobby).1.botDropTimers =
         fullLobby.botDropTimers
       ∧ (handleEvent "h1" GameEvent.disconnectEv fullLobby).1.scoreTimeoutTimers =
           fullLobby.scoreTimeoutTimers) :=
  ⟨c4_amended.1 fullLobby "sock2" alicePayload botPlayer (by decide) (by decide),
   c4_amended.2.1 gameOverState "x",
   c4_amended.2.2 fullLobby "h1"⟩

/-! ## C6: duplicate-name join -/

/-- C6 counterexample: at the 50-player capacity with a bot present,
a join whose name collides case-insensitively still evicts the bot
before the duplicate-name check runs, so the join fails with the
duplicate-name error *and* the roster has changed. -/
theorem c6_counterexample :
    fullLobby.players.any
      (fun p => toLowerStr p.name == toLowerStr alicePayload.name) = true
    ∧ (joinGame "sock2" alicePayload fullLobby).2 =
        [OutMsg.errorMessage "sock2" "Name already taken"]
    ∧ (joinGame "sock2" alicePayload fullLobby).1.players ≠ fullLobby.players := by
  decide

/-- C6 amended: for every join request whose name matches an existing
participant's name case-insensitively, *provided the roster is below
the 50-player capacity*, the join fails with the duplicate-name error,
the session state is left exactly as it was, and the only message is
the error unicast to the originating connection.  (At capacity the
eviction/rejection path runs first: with no bot the join fails with the
capacity error instead, and with a bot one bot is evicted even though
the join is then rejected.) -/
theorem c6_amended (s : ServerState) (sender : String) (np : Player)
    (hcap : s.players.length < 50)
    (hdup : s.players.any (fun p => toLowerStr p.name == toLowerStr np.name) = true) :
    joinGame sender np s = (s, [OutMsg.errorMessage sender "Name already taken"]) := by
  unfold joinGame
  rw [if_neg (by omega)]
  dsimp only
  rw [if_pos hdup]

/-- Witness for C6 amended: a second "Alice" joining a one-player
lobby. -/
theorem c6_amended_witness :
    joinGame "sock9" alicePayload { lobbyEmpty with players := [aliceActive] } =
      ({ lobbyEmpty with players := [aliceActive] },
       [OutMsg.errorMessage "sock9" "Name already taken"]) :=
  c6_amended { lobbyEmpty with players := [aliceActive] } "sock9" alicePayload
    (by decide) (by decide)

/-! ## C7: fields of a successfully joined participant -/

/-- C7 counterexample: a non-spectator joins an empty lobby with a
payload carrying score 7 and `finished = true`; the appended
participant keeps those payload values (score is not null, `finished`
does not mirror the spectator status) — only the id is replaced by the
server. -/
theorem c7_counterexample :
    alicePayload.isSpectator = some false
    ∧ (joinGame "sock1" alicePayload lobbyEmpty).1.players.map
        (fun p => (p.id, p.score, p.finished)) = [("sock1", some 7, true)] := by
  decide

/-- C7 amended: on every successful join the appended Participant
carries a fresh identifier assigned by the server — the connection id,
regardless of the payload id — while every other field (name, color,
score, `finished`, the spectator and bot and cheater flags) is taken
verbatim from the joining client's payload, and the full roster is
broadcast.  This covers both ways a join succeeds: below the 50-player
capacity with no duplicate name, and at capacity after the first bot
is evicted, with no duplicate name among the remaining participants —
the post-eviction roster gets the same `{ ...newPlayer, id: socket.id }`
appended. -/
theorem c7_amended :
    (∀ (s : ServerState) (sender : String) (np : Player),
       s.players.length < 50 →
       s.players.any (fun p => toLowerStr p.name == toLowerStr np.name) = false →
       joinGame sender np s =
         ({ s with players := s.players ++ [{ np with id := sender }] },
          [OutMsg.stateUpdate (s.players ++ [{ np with id := sender }]) s.gamePhase]))
    ∧ (∀ (s : ServerState) (sender : String) (np b : Player),
        50 ≤ s.players.length →
        s.players.find? (fun p => p.isBot) = some b →
        (removeFirstBot s.players).any
          (fun p => toLowerStr p.name == toLowerStr np.name) = false →
        (joinGame sender np s).1.players =
          removeFirstBot s.players ++ [{ np with id := sender }]
        ∧ (joinGame sender np s).2 =
            [OutMsg.stateUpdate
              (removeFirstBot s.players ++ [{ np with id := sender }]) s.gamePhase]) := by
  constructor
  · intro s sender np hcap hdup
    unfold joinGame
    rw [if_neg (by omega)]
    dsimp only
    rw [if_neg (by simp [hdup])]
  · intro s sender np b hlen hb hdup
    unfold joinGame
    rw [if_pos hlen, hb]
    dsimp only
    rw [if_neg (by simp [hdup])]
    exact ⟨rfl, rfl⟩

/-- Witness for C7 amended: `alicePayload` joins the empty lobby and is
appended with id "sock1" and its payload fields otherwise intact; and
`zoePayload` joins the full lobby, which evicts `botPlayer` and appends
the payload with id "sock3" and its fields otherwise intact. -/
theorem c7_amended_witness :
    joinGame "sock1" alicePayload lobbyEmpty =
      ({ lobbyEmpty with players := [{ alicePayload with id := "sock1" }] },
       [OutMsg.stateUpdate [{ alicePayload with id := "sock1" }] GamePhase.LOBBY])
    ∧ ((joinGame "sock3" zoePayload fullLobby).1.players =
         removeFirstBot fullLobby.players ++ [{ zoePayload with id := "sock3" }]
       ∧ (joinGame "sock3" zoePayload fullLobby).2 =
           [OutMsg.stateUpdate
             (removeFirstBot fullLobby.players ++ [{ zoePayload with id := "sock3" }])
             fullLobby.gamePhase]) :=
  ⟨c7_amended.1 lobbyEmpty "sock1" alicePayload (by decide) (by decide),
   c7_amended.2 fullLobby "sock3" zoePayload botPlayer
     (by decide) (by decide) (by decide)⟩

/-! ## Helper lemmas: branch behavior of score_update and destroy_ball -/

theorem scoreUpdate_noop_none (s : ServerState) (sender : String) (dpid : Option String)
    (pts : Int)
    (h : s.players.find? (fun p => p.id == resolveTarget dpid sender) = none) :
    scoreUpdate sender dpid pts s = (s, []) := by
  unfold scoreUpdate
  dsimp only
  rw [h]

theorem scoreUpdate_noop_unauth (s : ServerState) (sender : String) (dpid : Option String)
    (pts : Int) (p : Player)
    (hp : s.players.find? (fun q => q.id == resolveTarget dpid sender) = some p)
    (hna : ¬(resolveTarget dpid sender = sender ∨ p.isBot = true)) :
    scoreUpdate sender dpid pts s = (s, []) := by
  unfold scoreUpdate
  dsimp only
  rw [hp]
  dsimp only
  rw [if_neg hna]

theorem scoreUpdate_players_found (s : ServerState) (sender : String) (dpid : Option String)
    (pts : Int) (p : Player)
    (hp : s.players.find? (fun q => q.id == resolveTarget dpid sender) = some p)
    (hauth : resolveTarget dpid sender = sender ∨ p.isBot = true) :
    (scoreUpdate sender dpid pts s).1.players =
      updateFirstById s.players (resolveTarget dpid sender)
        (fun q => { q with score := some pts, finished := true }) := by
  unfold scoreUpdate
  dsimp only
  rw [hp]
  dsimp only
  rw [if_pos hauth]
  dsimp only
  rw [checkGameOver_players]

theorem scoreUpdate_phase_found (s : ServerState) (sender : String) (dpid : Option String)
    (pts : Int) (p : Player)
    (hp : s.players.find? (fun q => q.id == resolveTarget dpid sender) = some p)
    (hauth : resolveTarget dpid sender = sender ∨ p.isBot = true) :
    (scoreUpdate sender dpid pts s).1.gamePhase =
      (checkGameOver { s with players := updateFirstById s.players (resolveTarget dpid sender) (fun q => { q with score := some pts, finished := true }), scoreTimeoutTimers := s.scoreTimeoutTimers.filter (fun k => k ≠ resolveTarget dpid sender) }).1.gamePhase := by
  unfold scoreUpdate
  dsimp only
  rw [hp]
  dsimp only
  rw [if_pos hauth]

theorem destroyBall_noop (s : ServerState) (bid oid : String)
    (h : s.players.find? (fun p => p.id == oid) = none) :
    destroyBall bid oid s = (s, []) := by
  unfold destroyBall
  rw [h]

theorem destroyBall_players_found (s : ServerState) (bid oid : String) (p : Player)
    (hp : s.players.find? (fun q => q.id == oid) = some p) :
    (destroyBall bid oid s).1.players =
      updateFirstById s.players oid
        (fun q => { q with score := some 0, finished := true }) := by
  unfold destroyBall
  rw [hp]
  dsimp only
  rw [checkGameOver_players]

theorem destroyBall_phase_found (s : ServerState) (bid oid : String) (p : Player)
    (hp : s.players.find? (fun q => q.id == oid) = some p) :
    (destroyBall bid oid s).1.gamePhase =
      (checkGameOver { s with players := updateFirstById s.players oid (fun q => { q with score := some 0, finished := true }), scoreTimeoutTimers := s.scoreTimeoutTimers.filter (fun k => k ≠ oid) }).1.gamePhase := by
  unfold destroyBall
  rw [hp]

/-- Glue: after an effective mutation the new phase is the game-over
re-evaluation of the mutated roster, so for a state not already in
`GAME_OVER` the post phase is `GAME_OVER` exactly when the phase was
`PLAYING` and the mutated roster satisfies the game-over condition. -/
theorem noGO_iff (s : ServerState) {X : ServerState} (post : ServerState)
    (h1 : s.gamePhase ≠ GamePhase.GAME_OVER)
    (hphase : post.gamePhase = (checkGameOver X).1.gamePhase)
    (hg : X.gamePhase = s.gamePhase)
    (hplayers : post.players = X.players) :
    (post.gamePhase = GamePhase.GAME_OVER ↔
      (s.gamePhase = GamePhase.PLAYING ∧ gameOverCond post.players = true)) := by
  rw [hphase, checkGameOver_phase, hg, hplayers]
  exact or_iff_right h1

/-! ## C2: when the phase is GAME_OVER after an event -/

/-- C2 counterexample: the session is already in `GAME_OVER`; a
`destroy_ball` event still mutates a participant (it zeroes
`finishedP1`'s score), and afterwards the phase is `GAME_OVER` even
though the phase was not `PLAYING` — the claimed equivalence is false
because `GAME_OVER` persists. -/
theorem c2_counterexample :
    gameOverState.gamePhase ≠ GamePhase.PLAYING
    ∧ (handleEvent "c9" (GameEvent.destroyBallEv "b" "p1") gameOverState).1.players ≠
        gameOverState.players
    ∧ ¬(((handleEvent "c9" (GameEvent.destroyBallEv "b" "p1") gameOverState).1.gamePhase =
          GamePhase.GAME_OVER) ↔
        (gameOverState.gamePhase = GamePhase.PLAYING ∧
          gameOverCond (handleEvent "c9" (GameEvent.destroyBallEv "b" "p1")
            gameOverState).1.players = true)) := by
  decide

/-- C2 amended: after a state-mutating event (score report, ball
destruction, removal, or a timeout firing), *provided the phase was not
already `GAME_OVER` and the game-over condition did not already hold in
`PLAYING`*, the phase is `GAME_OVER` if and only if the phase was
`PLAYING`, at least one non-spectator exists afterwards, and every
non-spectator is finished afterwards; no other condition moves the
phase to `GAME_OVER`. -/
theorem c2_amended (sender : String) (e : GameEvent) (s : ServerState)
    (hmut : IsMutatingEvent e)
    (h1 : s.gamePhase ≠ GamePhase.GAME_OVER)
    (h3 : ¬(s.gamePhase = GamePhase.PLAYING ∧ gameOverCond s.players = true)) :
    ((handleEvent sender e s).1.gamePhase = GamePhase.GAME_OVER ↔
      (s.gamePhase = GamePhase.PLAYING ∧
        gameOverCond (handleEvent sender e s).1.players = true)) := by
  cases e with
  | joinGameEv np => exact hmut.elim
  | addBotEv n i h => exact hmut.elim
  | startGameEv => exact hmut.elim
  | resetLobbyEv => exact hmut.elim
  | playAgainEv => exact hmut.elim
  | dropBallEv => exact hmut.elim
  | scoreUpdateEv dpid pts =>
      show ((scoreUpdate sender dpid pts s).1.gamePhase = GamePhase.GAME_OVER ↔
        (s.gamePhase = GamePhase.PLAYING ∧
          gameOverCond (scoreUpdate sender dpid pts s).1.players = true))
      cases hfind : s.players.find? (fun p => p.id == resolveTarget dpid sender) with
      | none =>
          rw [scoreUpdate_noop_none s sender dpid pts hfind]
          exact iff_of_false h1 h3
      | some p =>
          by_cases hauth : resolveTarget dpid sender = sender ∨ p.isBot = true
          · exact noGO_iff s _ h1
              (scoreUpdate_phase_found s sender dpid pts p hfind hauth) rfl
              (scoreUpdate_players_found s sender dpid pts p hfind hauth)
          · rw [scoreUpdate_noop_unauth s sender dpid pts p hfind hauth]
            exact iff_of_false h1 h3
  | destroyBallEv bid oid =>
      show ((destroyBall bid oid s).1.gamePhase = GamePhase.GAME_OVER ↔
        (s.gamePhase = GamePhase.PLAYING ∧
          gameOverCond (destroyBall bid oid s).1.players = true))
      cases hfind : s.players.find? (fun p => p.id == oid) with
      | none =>
          rw [destroyBall_noop s bid oid hfind]
          exact iff_of_false h1 h3
      | some p =>
          exact noGO_iff s _ h1
            (destroyBall_phase_found s bid oid p hfind) rfl
            (destroyBall_players_found s bid oid p hfind)
  | disconnectEv =>
      show ((disconnect sender s).1.gamePhase = GamePhase.GAME_OVER ↔
        (s.gamePhase = GamePhase.PLAYING ∧
          gameOverCond (disconnect sender s).1.players = true))
      unfold disconnect
      dsimp only
      split
      · rename_i hemp
        refine iff_of_false (by simp) ?_
        rintro ⟨-, hc⟩
        rw [List.isEmpty_iff.mp hemp] at hc
        simp [gameOverCond, activeRoster] at hc
      · exact noGO_iff s _ h1 rfl rfl (checkGameOver_players _)
  | timeoutFireEv pid =>
      show ((timeoutFire pid s).1.gamePhase = GamePhase.GAME_OVER ↔
        (s.gamePhase = GamePhase.PLAYING ∧
          gameOverCond (timeoutFire pid s).1.players = true))
      cases hfind : s.players.find? (fun q => q.id == pid) with
      | none =>
          rw [timeoutFire_phase_noop s pid (Or.inl hfind),
            timeoutFire_players_none s pid hfind]
          exact iff_of_false h1 h3
      | some p =>
          cases hfin : p.finished with
          | false =>
              exact noGO_iff s _ h1
                (timeoutFire_phase_found s pid p hfind hfin) rfl
                (timeoutFire_players_found s pid p hfind hfin)
          | true =>
              rw [timeoutFire_phase_noop s pid (Or.inr ⟨p, hfind, hfin⟩),
                timeoutFire_players_finished s pid p hfind hfin]
              exact iff_of_false h1 h3

/-- Witness for C2 amended: in `PLAYING` with one unfinished
competitor, their self-reported score finishes everyone and the iff is
discharged at a concrete state. -/
theorem c2_amended_witness :
    ((handleEvent "p1" (GameEvent.scoreUpdateEv none 42) playingUnfinState).1.gamePhase =
        GamePhase.GAME_OVER ↔
      (playingUnfinState.gamePhase = GamePhase.PLAYING ∧
        gameOverCond (handleEvent "p1"
          (GameEvent.scoreUpdateEv none 42) playingUnfinState).1.players = true)) :=
  c2_amended "p1" (GameEvent.scoreUpdateEv none 42) playingUnfinState True.intro
    (by decide) (by decide)

/-! ## Helper lemmas: the hex color codec -/

theorem hexDigitVal_toHexDigit (d : Nat) (h : d < 16) :
    hexDigitVal (toHexDigit d) = some d := by
  interval_cases d <;> decide

theorem parseIntHex_two (x y : Nat) (hx : x < 16) (hy : y < 16) :
    parseIntHex [toHexDigit x, toHexDigit y] = some (16 * x + y) := by
  have h1 := hexDigitVal_toHexDigit x hx
  have h2 := hexDigitVal_toHexDigit y hy
  simp [parseIntHex, h1, h2]
  omega

theorem hexByte_data (n : Nat) (h : n < 256) :
    (hexByte n).data = [toHexDigit (n / 16), toHexDigit (n % 16)] := by
  have h2 : n / 16 % 16 = n / 16 := Nat.mod_eq_of_lt (by omega)
  simp [hexByte, h2]

theorem colorToInt_intToColor (r g b : Nat) (hr : r < 256) (hg : g < 256)
    (hb : b < 256) :
    colorToInt (intToColor (r * 65536 + g * 256 + b)) = r * 65536 + g * 256 + b := by
  have hand : ∀ m : Nat, m &&& 255 = m % 256 := fun m =>
    Nat.and_pow_two_sub_one_eq_mod m 8
  have hch1 : ((r * 65536 + g * 256 + b) >>> 16) &&& 255 = r := by
    rw [Nat.shiftRight_eq_div_pow, hand]
    norm_num
    omega
  have hch2 : ((r * 65536 + g * 256 + b) >>> 8) &&& 255 = g := by
    rw [Nat.shiftRight_eq_div_pow, hand]
    norm_num
    omega
  have hch3 : (r * 65536 + g * 256 + b) &&& 255 = b := by
    rw [hand]
    omega
  have hstr : intToColor (r * 65536 + g * 256 + b) =
      "#" ++ hexByte r ++ hexByte g ++ hexByte b := by
    unfold intToColor
    rw [hch1, hch2, hch3]
  rw [hstr]
  unfold colorToInt
  have hlist : ("#" ++ hexByte r ++ hexByte g ++ hexByte b).toList =
      '#' :: toHexDigit (r / 16) :: toHexDigit (r % 16) :: toHexDigit (g / 16) ::
        toHexDigit (g % 16) :: toHexDigit (b / 16) :: toHexDigit (b % 16) :: [] := by
    show ("#" ++ hexByte r ++ hexByte g ++ hexByte b).data = _
    rw [String.data_append, String.data_append, String.data_append,
      hexByte_data r hr, hexByte_data g hg, hexByte_data b hb]
    rfl
  rw [hlist]
  have hstrip : stripHash ('#' :: toHexDigit (r / 16) :: toHexDigit (r % 16) ::
      toHexDigit (g / 16) :: toHexDigit (g % 16) :: toHexDigit (b / 16) ::
      toHexDigit (b % 16) :: []) =
      toHexDigit (r / 16) :: toHexDigit (r % 16) :: toHexDigit (g / 16) ::
        toHexDigit (g % 16) :: toHexDigit (b / 16) :: toHexDigit (b % 16) :: [] := by
    simp [stripHash]
  rw [hstrip]
  dsimp only [List.take, List.drop]
  rw [parseIntHex_two (r / 16) (r % 16) (by omega) (by omega),
    parseIntHex_two (g / 16) (g % 16) (by omega) (by omega),
    parseIntHex_two (b / 16) (b % 16) (by omega) (by omega)]
  dsimp only [Option.getD]
  have er : 16 * (r / 16) + r % 16 = r := by omega
  have eg : 16 * (g / 16) + g % 16 = g := by omega
  have eb : 16 * (b / 16) + b % 16 = b := by omega
  rw [er, eg, eb]
  have e2 : r <<< 16 = r * 65536 := by
    rw [Nat.shiftLeft_eq]
  have e1 : g <<< 8 = g * 256 := by
    rw [Nat.shiftLeft_eq]
  rw [e1, e2]
  have e3 : (r * 65536) ||| (g * 256) = r * 65536 + g * 256 := by
    have h16 : g * 256 < 2 ^ 16 := by omega
    have := Nat.mul_add_lt_is_or h16 r
    have harith : 2 ^ 16 * r = r * 65536 := by ring
    rw [harith] at this
    exact this.symm
  rw [e3]
  have e4 : (r * 65536 + g * 256) ||| b = r * 65536 + g * 256 + b := by
    have h8 : b < 2 ^ 8 := by omega
    have := Nat.mul_add_lt_is_or h8 (r * 256 + g)
    have harith : 2 ^ 8 * (r * 256 + g) = r * 65536 + g * 256 := by ring
    rw [harith] at this
    exact this.symm
  rw [e4]

/-! ## C9: the color codec round trip -/

/-- C9 counterexample: the session gives bots colors of the form
`hsl(h, 100%, 50%)` (here with hue 0, i.e. pure red, packed RGB
0xff0000 = 16711680); `colorToInt` parses that string as hex text and
yields 0, so the round trip returns "#000000" — a different color
value, not merely different formatting. -/
theorem c9_counterexample :
    intToColor (colorToInt (botColor "0")) = "#000000"
    ∧ colorToInt "#000000" = 0
    ∧ hslBotPackedRgb 0 = 16711680
    ∧ (0 : Nat) ≠ 16711680 := by
  decide

/-- C9 amended: the color codec round trip preserves the color value
for hex colors only: for every packed RGB value (equivalently, every
canonical lowercase `#rrggbb` string, the form `intToColor` produces),
`colorToInt` is a left inverse of `intToColor` and the string round
trip is the identity.  The `hsl(...)` strings the session generates for
bots (and for human players) are outside this domain and are mapped to
a different color. -/
theorem c9_amended (r g b : Nat) (hr : r < 256) (hg : g < 256) (hb : b < 256) :
    colorToInt (intToColor (r * 65536 + g * 256 + b)) = r * 65536 + g * 256 + b
    ∧ intToColor (colorToInt (intToColor (r * 65536 + g * 256 + b))) =
        intToColor (r * 65536 + g * 256 + b) := by
  have h := colorToInt_intToColor r g b hr hg hb
  exact ⟨h, by rw [h]⟩

/-- Witness for C9 amended at the packed color 0xff00a7. -/
theorem c9_amended_witness :
    colorToInt (intToColor (255 * 65536 + 0 * 256 + 167)) =
      255 * 65536 + 0 * 256 + 167
    ∧ intToColor (colorToInt (intToColor (255 * 65536 + 0 * 256 + 167))) =
        intToColor (255 * 65536 + 0 * 256 + 167) :=
  c9_amended 255 0 167 (by norm_num) (by norm_num) (by norm_num)

/-! ## Helper lemmas: the association-list model of Map<string, Player> -/

theorem mapGet_set_eq (m : List (String × Player)) (k : String) (v : Player) :
    mapGet (mapSet m k v) k = some v := by
  induction m with
  | nil => simp [mapSet, mapGet]
  | cons e rest ih =>
      by_cases h : e.1 = k
      · simp [mapSet, mapGet, h]
      · simp only [mapSet]
        rw [if_neg h]
        simp only [mapGet, List.find?]
        have : (e.1 == k) = false := by simp [h]
        simp only [this]
        exact ih

theorem mapGet_set_ne (m : List (String × Player)) (k k' : String) (v : Player)
    (h : k' ≠ k) : mapGet (mapSet m k v) k' = mapGet m k' := by
  induction m with
  | nil =>
      have h0 : (k == k') = false := by simp [Ne.symm h]
      simp [mapSet, mapGet, List.find?, h0]
  | cons e rest ih =>
      by_cases he : e.1 = k
      · subst he
        simp only [mapSet, if_pos rfl]
        simp only [mapGet, List.find?]
        have h1 : (e.1 == k') = false := by simp [Ne.symm h]
        simp [h1]
      · simp only [mapSet, if_neg he]
        simp only [mapGet, List.find?] at ih ⊢
        by_cases he' : e.1 = k'
        · simp [he']
        · have h1 : (e.1 == k') = false := by simp [he']
          simp only [h1]
          exact ih

theorem mapSet_append (m : List (String × Player)) (k : String) (v : Player)
    (h : ∀ e ∈ m, e.1 ≠ k) : mapSet m k v = m ++ [(k, v)] := by
  induction m with
  | nil => rfl
  | cons e rest ih =>
      have hek : e.1 ≠ k := h e (by simp)
      simp only [mapSet, if_neg hek, List.cons_append, List.cons.injEq, true_and]
      exact ih (fun e' he' => h e' (by simp [he']))

theorem buildMap_go (l : List Player) :
    ∀ (init : List (String × Player)),
      (∀ e ∈ init, e.1 ∉ l.map Player.id) →
      (l.map Player.id).Nodup →
      l.foldl (fun m p => mapSet m p.id p) init = init ++ l.map (fun p => (p.id, p)) := by
  induction l with
  | nil => intro init _ _; simp
  | cons p rest ih =>
      intro init hinit hnd
      simp only [List.foldl_cons]
      have hset : mapSet init p.id p = init ++ [(p.id, p)] := by
        apply mapSet_append
        intro e he
        have := hinit e he
        simp at this
        exact fun hc => this.1 hc
      rw [hset]
      rw [ih (init ++ [(p.id, p)]) ?_ ?_]
      · simp
      · intro e he
        rcases List.mem_append.mp he with h | h
        · have := hinit e h
          simp at this
          intro hc
          exact absurd hc (by simpa using this.2)
        · simp at h
          subst h
          simp only [List.map_cons, List.nodup_cons] at hnd
          simpa using hnd.1
      · simp only [List.map_cons, List.nodup_cons] at hnd
        exact hnd.2

theorem buildMap_eq (l : List Player) (h : (l.map Player.id).Nodup) :
    buildMap l = l.map (fun p => (p.id, p)) := by
  have := buildMap_go l [] (by simp) h
  simpa [buildMap] using this

theorem mapGet_pairs (l : List Player) (i : String) :
    mapGet (l.map (fun p => (p.id, p))) i = pLookup l i := by
  induction l with
  | nil => rfl
  | cons p rest ih =>
      simp only [List.map_cons, mapGet, pLookup, List.find?]
      by_cases h : p.id = i
      · simp [h]
      · have h1 : (p.id == i) = false := by simp [h]
        have h2 : (decide (p.id = i)) = false := by simp [h]
        simp only [h1, h2]
        exact ih

theorem applyEntry_get_eq (m : List (String × Player)) (d : PlayerDelta) :
    mapGet (applyEntry m d) d.id = some (stepVal m d) := by
  unfold applyEntry stepVal
  cases h : mapGet m d.id with
  | none => simp [mapGet_set_eq]
  | some p => simp [mapGet_set_eq]

theorem applyEntry_get_ne (m : List (String × Player)) (d : PlayerDelta)
    (i : String) (h : i ≠ d.id) :
    mapGet (applyEntry m d) i = mapGet m i := by
  unfold applyEntry
  cases hm : mapGet m d.id with
  | none => exact mapGet_set_ne m d.id i _ h
  | some p => exact mapGet_set_ne m d.id i _ h

theorem applyFold_not_mem (ds : List PlayerDelta) (i : String) :
    ∀ m, (∀ d ∈ ds, d.id ≠ i) →
      mapGet (ds.foldl applyEntry m) i = mapGet m i := by
  induction ds with
  | nil => intro m _; rfl
  | cons d rest ih =>
      intro m h
      simp only [List.foldl_cons]
      rw [ih (applyEntry m d) (fun d' hd' => h d' (by simp [hd']))]
      exact applyEntry_get_ne m d i (fun hc => h d (by simp) hc.symm)

theorem applyFold_get (ds : List PlayerDelta) (i : String) :
    ∀ m, (ds.map PlayerDelta.id).Nodup →
      mapGet (ds.foldl applyEntry m) i =
        (match ds.find? (fun d => d.id == i) with
         | none => mapGet m i
         | some d => some (stepVal m d)) := by
  induction ds with
  | nil => intro m _; rfl
  | cons d rest ih =>
      intro m hnd
      simp only [List.map_cons, List.nodup_cons] at hnd
      simp only [List.foldl_cons, List.find?]
      by_cases h : d.id = i
      · have hb : (d.id == i) = true := by simp [h]
        rw [hb]
        subst h
        rw [applyFold_not_mem rest d.id (applyEntry m d) ?_]
        · exact applyEntry_get_eq m d
        · intro d' hd'
          intro hc
          exact hnd.1 (by rw [← hc]; exact List.mem_map_of_mem PlayerDelta.id hd')
      · have hb : (d.id == i) = false := by simp [h]
        rw [hb]
        rw [ih (applyEntry m d) hnd.2]
        cases hf : rest.find? (fun d' => d'.id == i) with
        | none => exact applyEntry_get_ne m d i (fun hc => h hc.symm)
        | some d' =>
            have hd'i : d'.id = i := by
              have := List.find?_some hf
              simpa using this
            have hs : stepVal (applyEntry m d) d' = stepVal m d' := by
              unfold stepVal
              rw [hd'i, applyEntry_get_ne m d i (fun hc => h hc.symm)]
            dsimp only
            rw [hs]

theorem mapGet_wellKeyed (m : List (String × Player)) (hw : WellKeyed m)
    (k : String) (p : Player) (h : mapGet m k = some p) : p.id = k := by
  induction m with
  | nil => simp [mapGet] at h
  | cons e rest ih =>
      simp only [mapGet, List.find?] at h
      by_cases he : e.1 = k
      · have hb : (e.1 == k) = true := by simp [he]
        rw [hb] at h
        simp at h
        rw [← h, hw e (by simp), he]
      · have hb : (e.1 == k) = false := by simp [he]
        rw [hb] at h
        exact ih (fun e' he' => hw e' (by simp [he'])) h

theorem mem_mapSet (m : List (String × Player)) (k : String) (v : Player)
    (e : String × Player) (h : e ∈ mapSet m k v) : e = (k, v) ∨ e ∈ m := by
  induction m with
  | nil => simp [mapSet] at h; simp [h]
  | cons e' rest ih =>
      by_cases he : e'.1 = k
      · simp only [mapSet, if_pos he] at h
        rcases List.mem_cons.mp h with h | h
        · exact Or.inl h
        · exact Or.inr (by simp [h])
      · simp only [mapSet, if_neg he] at h
        rcases List.mem_cons.mp h with h | h
        · exact Or.inr (by simp [h])
        · rcases ih h with h | h
          · exact Or.inl h
          · exact Or.inr (by simp [h])

theorem wellKeyed_applyEntry (m : List (String × Player)) (d : PlayerDelta)
    (hw : WellKeyed m) : WellKeyed (applyEntry m d) := by
  intro e he
  unfold applyEntry at he
  cases hm : mapGet m d.id with
  | none =>
      rw [hm] at he
      rcases mem_mapSet m d.id (newPlayerFromDelta d) e he with h | h
      · rw [h]
        rfl
      · exact hw e h
  | some p =>
      rw [hm] at he
      rcases mem_mapSet m d.id (mergePlayer p d) e he with h | h
      · rw [h]
        show (mergePlayer p d).id = d.id
        have : p.id = d.id := mapGet_wellKeyed m hw d.id p hm
        rw [← this]
        rfl
      · exact hw e h

theorem wellKeyed_fold (ds : List PlayerDelta) :
    ∀ m, WellKeyed m → WellKeyed (ds.foldl applyEntry m) := by
  induction ds with
  | nil => intro m hw; exact hw
  | cons d rest ih =>
      intro m hw
      exact ih (applyEntry m d) (wellKeyed_applyEntry m d hw)

theorem wellKeyed_pairs (l : List Player) :
    WellKeyed (l.map (fun p => (p.id, p))) := by
  intro e he
  simp only [List.mem_map] at he
  obtain ⟨p, _, hp⟩ := he
  rw [← hp]

theorem pLookup_values (m : List (String × Player)) (hw : WellKeyed m) (i : String) :
    pLookup (m.map (fun e => e.2)) i = mapGet m i := by
  induction m with
  | nil => rfl
  | cons e rest ih =>
      simp only [List.map_cons, pLookup, List.find?, mapGet]
      have hid : e.2.id = e.1 := hw e (by simp)
      by_cases h : e.1 = i
      · have h1 : decide (e.2.id = i) = true := by simp [hid, h]
        have h2 : (e.1 == i) = true := by simp [h]
        simp [h1, h2]
      · have h1 : decide (e.2.id = i) = false := by simp [hid, h]
        have h2 : (e.1 == i) = false := by simp [h]
        simp only [h1, h2]
        exact ih (fun e' he' => hw e' (by simp [he']))

/-! ## Helper lemmas: characterizing computeStateDelta and applyStateDelta -/

theorem computeFold_eq_filterMap (A : List Player) (hA : (A.map Player.id).Nodup)
    (l : List Player) :
    ∀ acc, l.foldl
      (fun acc currentPlayer =>
        match mapGet (buildMap A) currentPlayer.id with
        | none => acc ++ [fullEntry currentPlayer]
        | some previousPlayer =>
            if hasChanges previousPlayer currentPlayer then
              acc ++ [diffEntry previousPlayer currentPlayer]
            else acc) acc = acc ++ l.filterMap (entryFor A) := by
  have hget : ∀ j, mapGet (buildMap A) j = pLookup A j := by
    intro j
    rw [buildMap_eq A hA, mapGet_pairs]
  induction l with
  | nil => intro acc; simp
  | cons b rest ih =>
      intro acc
      simp only [List.foldl_cons, List.filterMap_cons]
      rw [hget b.id]
      cases hb : pLookup A b.id with
      | none =>
          simp only [entryFor, hb]
          rw [ih (acc ++ [fullEntry b])]
          simp
      | some prev =>
          simp only [entryFor, hb]
          by_cases hch : hasChanges prev b = true
          · rw [if_pos hch, if_pos hch]
            rw [ih (acc ++ [diffEntry prev b])]
            simp
          · rw [if_neg hch, if_neg hch]
            exact ih acc

theorem entryFor_id (A : List Player) (b : Player) (d : PlayerDelta)
    (h : entryFor A b = some d) : d.id = b.id := by
  unfold entryFor at h
  cases hb : pLookup A b.id with
  | none =>
      rw [hb] at h
      dsimp only at h
      simp at h
      rw [← h]
      rfl
  | some prev =>
      rw [hb] at h
      dsimp only at h
      by_cases hch : hasChanges prev b = true
      · rw [if_pos hch] at h
        simp at h
        rw [← h]
        rfl
      · rw [if_neg hch] at h
        simp at h

theorem filterMap_ids_sublist (A : List Player) (l : List Player) :
    ((l.filterMap (entryFor A)).map PlayerDelta.id).Sublist (l.map Player.id) := by
  induction l with
  | nil => simp
  | cons b rest ih =>
      simp only [List.filterMap_cons, List.map_cons]
      cases hb : entryFor A b with
      | none => exact ih.cons _
      | some d =>
          simp only [List.map_cons]
          rw [entryFor_id A b d hb]
          exact ih.cons₂ _

theorem deltas_nodup (A B : List Player) (hB : (B.map Player.id).Nodup) :
    ((B.filterMap (entryFor A)).map PlayerDelta.id).Nodup :=
  (filterMap_ids_sublist A B).nodup hB

theorem find?_filterMap_entryFor (A : List Player) (B : List Player)
    (hB : (B.map Player.id).Nodup) (i : String) :
    (B.filterMap (entryFor A)).find? (fun d => d.id == i) =
      (match pLookup B i with
       | none => none
       | some b => entryFor A b) := by
  induction B with
  | nil => rfl
  | cons b rest ih =>
      simp only [List.map_cons, List.nodup_cons] at hB
      simp only [List.filterMap_cons, pLookup, List.find?]
      by_cases h : b.id = i
      · have hd : decide (b.id = i) = true := by simp [h]
        rw [hd]
        dsimp only
        cases hb : entryFor A b with
        | some d =>
            have hdi : (d.id == i) = true := by
              simp [entryFor_id A b d hb, h]
            simp only [List.find?, hdi]
        | none =>
            dsimp only
            apply List.find?_eq_none.mpr
            intro d hd'
            simp only [List.mem_filterMap] at hd'
            obtain ⟨b', hb', hdb'⟩ := hd'
            have hdb : d.id = b'.id := entryFor_id A b' d hdb'
            have hbm : b'.id ∈ rest.map Player.id := List.mem_map_of_mem Player.id hb'
            simp only [beq_iff_eq, hdb]
            intro hc
            apply hB.1
            rw [← h] at hc
            rw [← hc]
            exact hbm
      · have hd : decide (b.id = i) = false := by simp [h]
        rw [hd]
        dsimp only
        cases hb : entryFor A b with
        | some d =>
            have hdi : (d.id == i) = false := by
              simp [entryFor_id A b d hb, h]
            simp only [List.find?, hdi]
            exact ih hB.2
        | none =>
            exact ih hB.2

theorem mergePlayer_diffEntry (prev b : Player) (hid : prev.id = b.id)
    (hspec : b.isSpectator.isSome = true) :
    mergePlayer prev (diffEntry prev b) = b := by
  obtain ⟨v, hv⟩ := Option.isSome_iff_exists.mp hspec
  unfold mergePlayer diffEntry
  refine Player.ext ?_ ?_ ?_ ?_ ?_ ?_ ?_ ?_
  · exact hid
  · by_cases h : prev.name = b.name <;> simp [h]
  · by_cases h : prev.score = b.score <;> simp [h]
  · by_cases h : prev.color = b.color <;> simp [h]
  · by_cases h : prev.isCheater = b.isCheater <;> simp [h]
  · by_cases h : prev.isBot = b.isBot <;> simp [h]
  · rw [hv]
    by_cases h : prev.isSpectator = some v <;> simp [h]
  · by_cases h : prev.finished = b.finished <;> simp [h]

theorem newPlayerFromDelta_fullEntry (b : Player)
    (hspec : b.isSpectator.isSome = true) (hcol : b.color ≠ "") :
    newPlayerFromDelta (fullEntry b) = b := by
  obtain ⟨v, hv⟩ := Option.isSome_iff_exists.mp hspec
  unfold newPlayerFromDelta fullEntry
  ext <;> simp [hv, hcol]

theorem fullPlayerFromDelta_fullEntry (b : Player)
    (hspec : b.isSpectator.isSome = true) :
    fullPlayerFromDelta (fullEntry b) = b := by
  obtain ⟨v, hv⟩ := Option.isSome_iff_exists.mp hspec
  unfold fullPlayerFromDelta fullEntry
  ext <;> simp [hv]

theorem eq_of_hasChanges_false (prev b : Player) (hid : prev.id = b.id)
    (h : hasChanges prev b = false) : prev = b := by
  unfold hasChanges at h
  simp only [Bool.or_eq_false_iff, decide_eq_false_iff_not, not_not] at h
  obtain ⟨⟨⟨⟨⟨⟨h1, h2⟩, h3⟩, h4⟩, h5⟩, h6⟩, h7⟩ := h
  exact Player.ext hid h1 h3 h2 h4 h5 h6 h7

theorem pLookup_some (l : List Player) (i : String) (p : Player)
    (h : pLookup l i = some p) : p ∈ l ∧ p.id = i := by
  constructor
  · exact List.mem_of_find?_eq_some h
  · have := List.find?_some h
    simpa using this

theorem pLookup_eq_none_iff (l : List Player) (i : String) :
    pLookup l i = none ↔ ∀ p ∈ l, p.id ≠ i := by
  unfold pLookup
  rw [List.find?_eq_none]
  simp

theorem computeStateDelta_sparse_fields (A B : GameState) (hph : A.phase = B.phase)
    (hA : (A.players.map Player.id).Nodup) :
    (computeStateDelta A B).players.getD [] = B.players.filterMap (entryFor A.players)
    ∧ (computeStateDelta A B).phase = none
    ∧ (computeStateDelta A B).fullState = false := by
  unfold computeStateDelta
  rw [if_neg (by simp [hph])]
  dsimp only
  rw [computeFold_eq_filterMap A.players hA B.players []]
  simp only [List.nil_append]
  by_cases hemp : (B.players.filterMap (entryFor A.players)).isEmpty = true
  · rw [if_pos ⟨hemp, hph⟩]
    refine ⟨?_, rfl, rfl⟩
    simp [List.isEmpty_iff.mp hemp]
  · rw [if_neg (fun hc => hemp hc.1)]
    refine ⟨?_, ?_, rfl⟩
    · dsimp only
      rw [if_neg hemp]
      rfl
    · dsimp only
      rw [if_neg (by simp [hph])]

theorem applyStateDelta_sparse (A : GameState) (delta : GameStateDelta)
    (hfull : delta.fullState = false) :
    applyStateDelta A delta =
      { players := ((delta.players.getD []).foldl applyEntry
          (buildMap A.players)).map (fun e => e.2)
        phase := delta.phase.getD A.phase } := by
  unfold applyStateDelta
  simp [hfull]

theorem map_full_roundtrip (l : List Player)
    (h : ∀ p ∈ l, p.isSpectator.isSome = true) :
    l.map (fullPlayerFromDelta ∘ fullEntry) = l := by
  induction l with
  | nil => rfl
  | cons p rest ih =>
      simp only [List.map_cons, Function.comp_apply]
      rw [fullPlayerFromDelta_fullEntry p (h p (by simp)),
        ih (fun q hq => h q (by simp [hq]))]

/-- C1 amended: `applyStateDelta A (computeStateDelta A B)`
reconstructs B exactly — provided every participant of B carries an
explicit `isSpectator` value.  On the full-replacement path (phase
differs) the reconstruction is then exact as a list.  On the sparse
path (phase unchanged and every participant of A still present in B,
ids duplicate-free as the data model requires) the result agrees with
B as an id-keyed map and in phase, provided additionally that every
participant added in B has a nonempty color string (an empty color of
an added participant is replaced by "#ffffff").  Removals without a
phase change remain the uncovered case. -/
theorem c1_amended (A B : GameState)
    (hspec : ∀ p ∈ B.players, p.isSpectator.isSome = true) :
    (A.phase ≠ B.phase → applyStateDelta A (computeStateDelta A B) = B)
    ∧ (A.phase = B.phase →
       (A.players.map Player.id).Nodup →
       (B.players.map Player.id).Nodup →
       (∀ a ∈ A.players, ∃ b ∈ B.players, b.id = a.id) →
       (∀ b ∈ B.players, pLookup A.players b.id = none → b.color ≠ "") →
       (∀ i, pLookup (applyStateDelta A (computeStateDelta A B)).players i =
          pLookup B.players i)
       ∧ (applyStateDelta A (computeStateDelta A B)).phase = B.phase) := by
  constructor
  · intro hph
    unfold computeStateDelta
    rw [if_pos hph]
    unfold applyStateDelta
    dsimp only
    rw [if_pos rfl]
    refine GameState.ext ?_ ?_
    · dsimp only
      simp only [Option.getD_some]
      rw [List.map_map]
      exact map_full_roundtrip B.players hspec
    · rfl
  · intro hph hA hB hsub hcol
    obtain ⟨hcp, hcph, hcf⟩ := computeStateDelta_sparse_fields A B hph hA
    rw [applyStateDelta_sparse A _ hcf]
    have hwk : WellKeyed (buildMap A.players) := by
      rw [buildMap_eq A.players hA]
      exact wellKeyed_pairs A.players
    have hm0 : ∀ j, mapGet (buildMap A.players) j = pLookup A.players j := by
      intro j
      rw [buildMap_eq A.players hA, mapGet_pairs]
    constructor
    · intro i
      dsimp only
      rw [hcp]
      rw [pLookup_values _
        (wellKeyed_fold (B.players.filterMap (entryFor A.players)) _ hwk) i]
      rw [applyFold_get (B.players.filterMap (entryFor A.players)) i _
        (deltas_nodup A.players B.players hB)]
      rw [find?_filterMap_entryFor A.players B.players hB i]
      cases hbi : pLookup B.players i with
      | none =>
          dsimp only
          rw [hm0 i]
          cases hai : pLookup A.players i with
          | none => rfl
          | some a =>
              obtain ⟨haA, haid⟩ := pLookup_some A.players i a hai
              obtain ⟨b, hbB, hbid⟩ := hsub a haA
              exact absurd (hbid.trans haid)
                ((pLookup_eq_none_iff B.players i).mp hbi b hbB)
      | some b =>
          dsimp only
          obtain ⟨hbB, hbid⟩ := pLookup_some B.players i b hbi
          unfold entryFor
          cases hab : pLookup A.players b.id with
          | none =>
              dsimp only
              unfold stepVal
              have hg : mapGet (buildMap A.players) (fullEntry b).id = none := by
                show mapGet (buildMap A.players) b.id = none
                rw [hm0]
                exact hab
              rw [hg]
              dsimp only
              rw [newPlayerFromDelta_fullEntry b (hspec b hbB) (hcol b hbB hab)]
          | some prev =>
              dsimp only
              obtain ⟨hprevA, hprevid⟩ := pLookup_some A.players b.id prev hab
              by_cases hch : hasChanges prev b = true
              · rw [if_pos hch]
                dsimp only
                unfold stepVal
                have hg : mapGet (buildMap A.players) (diffEntry prev b).id =
                    some prev := by
                  show mapGet (buildMap A.players) b.id = some prev
                  rw [hm0]
                  exact hab
                rw [hg]
                dsimp only
                rw [mergePlayer_diffEntry prev b hprevid (hspec b hbB)]
              · rw [if_neg hch]
                dsimp only
                rw [hm0 i, ← hbid, hab]
                have hpb : prev = b :=
                  eq_of_hasChanges_false prev b hprevid (by simpa using hch)
                rw [hpb]
    · dsimp only
      rw [hcph]
      exact hph

/-! ## C1: the delta round trip -/

/-- C1 counterexample: on the full-replacement path (the phase differs
between A and B), a participant whose optional `isSpectator` property
is absent is reconstructed with an explicit `isSpectator := false`
(the `?? false` default in `applyStateDelta`), so the id-keyed
participant map of the result differs from B in that field — the
round trip is not exact even on the full path. -/
theorem c1_counterexample :
    c1Astate.phase ≠ c1Bstate.phase
    ∧ pLookup (applyStateDelta c1Astate
        (computeStateDelta c1Astate c1Bstate)).players "x" ≠
      pLookup c1Bstate.players "x" := by
  decide

/-- Witness for C1 amended along the sparse path: one existing player
scores and a new player appears; both lookups and the phase agree
after the round trip. -/
theorem c1_amended_witness :
    pLookup (applyStateDelta c1WAstate
        (computeStateDelta c1WAstate c1WBstate)).players "p1" =
      pLookup c1WBstate.players "p1"
    ∧ pLookup (applyStateDelta c1WAstate
        (computeStateDelta c1WAstate c1WBstate)).players "h2" =
      pLookup c1WBstate.players "h2"
    ∧ (applyStateDelta c1WAstate
        (computeStateDelta c1WAstate c1WBstate)).phase = c1WBstate.phase := by
  have h := (c1_amended c1WAstate c1WBstate (by decide)).2 rfl (by decide)
    (by decide) (by decide) (by decide)
  exact ⟨h.1 "p1", h.1 "h2", h.2⟩
